import Mathlib

/-!
Verification of the aes-gcm-siv-impl crate against its specification.

The repository's own code (`src/lib.rs`) is a validating wrapper: it checks
nonce and key lengths, dispatches on the key length between the AES-128 and
AES-256 parameterizations of AES-GCM-SIV, and maps cipher failures to a
closed error taxonomy.  The cipher core itself (AES block cipher, POLYVAL,
the RFC 8452 key-derivation and SIV construction) lives in the external
RustCrypto `aes_gcm_siv` crate and is therefore modelled here from the
specification (sections 4.1 to 4.4), byte-for-byte faithful to RFC 8452.

Blocks are 128-bit values represented as `Nat`, packed little-endian: byte
`i` of the block occupies bits `8*i .. 8*i+7`.  Byte sequences are
`List Nat` with each element a byte value.
-/

namespace AesGcmSiv

/-- AES S-box packed as a single natural number: entry `b` of the S-box sits
at bits `8*b .. 8*b+7`.  Part of the block-cipher primitive modelled from the
spec (section 4.1); the table is the standard FIPS-197 S-box. -/
def sboxN : Nat :=
  0x16bb54b00f2d99416842e6bf0d89a18cdf2855cee9871e9b948ed9691198f8e19e1dc186b95735610ef6034866b53e708a8bbd4b1f74dde8c6b4a61c2e2578ba08ae7a65eaf4566ca94ed58d6d37c8e779e4959162acd3c25c2406490a3a32e0db0b5ede14b8ee4688902a22dc4f816073195d643d7ea7c41744975fec130ccdd2f3ff1021dab6bcf5389d928f40a351a89f3c507f02f94585334d43fbaaefd0cf584c4a39becb6a5bb1fc20ed00d153842fe329b3d63b52a05a6e1b1a2c830975b227ebe28012079a059618c323c7041531d871f1e5a534ccf73f362693fdb7c072a49cafa2d4adf04759fa7dc982ca76abd7fe2b670130c56f6bf27b777c63

/-- S-box lookup of a byte. -/
def sbox (b : Nat) : Nat := (sboxN >>> (8 * b)) &&& 255

/-- Byte `i` of a little-endian packed block. -/
def getByte (n i : Nat) : Nat := (n >>> (8 * i)) &&& 255

/-- Pack a byte sequence into a natural number, first byte least
significant. -/
def bytesToNat (l : List Nat) : Nat := l.foldr (fun b acc => b + 256 * acc) 0

/-- Unpack the low 16 bytes of a natural number, least significant byte
first. -/
def toBytes16 (n : Nat) : List Nat := (List.range 16).map (fun i => getByte n i)

/-- Build a 16-byte block from a byte-valued function on positions 0..15. -/
def pack16 (f : Nat → Nat) : Nat :=
  (List.range 16).foldl (fun acc i => acc ||| (f i <<< (8 * i))) 0

/-- Multiplication by x in GF(2^8) modulo the AES polynomial x^8+x^4+x^3+x+1. -/
def xtime (b : Nat) : Nat :=
  if b &&& 128 = 0 then (b <<< 1) &&& 255 else ((b <<< 1) ^^^ 27) &&& 255

/-- Multiplication by 2 in the AES field. -/
def gmul2 (b : Nat) : Nat := xtime b

/-- Multiplication by 3 in the AES field. -/
def gmul3 (b : Nat) : Nat := xtime b ^^^ b

/-- AES SubBytes step on a packed state. -/
def subBytes (st : Nat) : Nat := pack16 (fun i => sbox (getByte st i))

/-- Source byte index of output byte `i` under ShiftRows: the state is
column-major (byte `4*c + r` is row `r`, column `c`) and row `r` rotates
left by `r`. -/
def shiftRowsSrc (i : Nat) : Nat := 4 * ((i / 4 + i % 4) % 4) + i % 4

/-- AES ShiftRows step on a packed state. -/
def shiftRows (st : Nat) : Nat := pack16 (fun i => getByte st (shiftRowsSrc i))

/-- Output byte `i` of MixColumns applied to a packed state. -/
def mixByte (st i : Nat) : Nat :=
  let c := i / 4
  let s0 := getByte st (4 * c)
  let s1 := getByte st (4 * c + 1)
  let s2 := getByte st (4 * c + 2)
  let s3 := getByte st (4 * c + 3)
  match i % 4 with
  | 0 => gmul2 s0 ^^^ gmul3 s1 ^^^ s2 ^^^ s3
  | 1 => s0 ^^^ gmul2 s1 ^^^ gmul3 s2 ^^^ s3
  | 2 => s0 ^^^ s1 ^^^ gmul2 s2 ^^^ gmul3 s3
  | _ => gmul3 s0 ^^^ s1 ^^^ s2 ^^^ gmul2 s3

/-- AES MixColumns step on a packed state. -/
def mixColumns (st : Nat) : Nat := pack16 (fun i => mixByte st i)

/-- SubWord of the AES key schedule on a big-endian 32-bit word. -/
def subWord (w : Nat) : Nat :=
  (sbox ((w >>> 24) &&& 255) <<< 24) ||| (sbox ((w >>> 16) &&& 255) <<< 16) |||
    (sbox ((w >>> 8) &&& 255) <<< 8) ||| sbox (w &&& 255)

/-- RotWord of the AES key schedule. -/
def rotWord (w : Nat) : Nat := ((w <<< 8) &&& 0xFFFFFFFF) ||| (w >>> 24)

/-- Round-constant byte: rconByte n is the byte of Rcon[n+1]. -/
def rconByte : Nat → Nat
  | 0 => 1
  | n + 1 => xtime (rconByte n)

/-- AES key expansion to the full word schedule (44 words for AES-128,
60 words for AES-256), FIPS-197 section 5.2. -/
def keyWords (key : List Nat) : List Nat :=
  let nk := key.length / 4
  let base := (List.range nk).map (fun i =>
    (key.getD (4 * i) 0 <<< 24) ||| (key.getD (4 * i + 1) 0 <<< 16) |||
      (key.getD (4 * i + 2) 0 <<< 8) ||| key.getD (4 * i + 3) 0)
  let total := if nk = 4 then 44 else 60
  (List.range (total - nk)).foldl (fun ws j =>
    let i := nk + j
    let prev := ws.getD (i - 1) 0
    let temp :=
      if i % nk = 0 then subWord (rotWord prev) ^^^ (rconByte (i / nk - 1) <<< 24)
      else if nk = 8 ∧ i % nk = 4 then subWord prev
      else prev
    ws ++ [ws.getD (i - nk) 0 ^^^ temp]) base

/-- Round key `j` as a packed 16-byte block: word `c` of the round supplies
bytes `4*c .. 4*c+3`, most significant byte first. -/
def roundKey (ws : List Nat) (j : Nat) : Nat :=
  pack16 (fun i => (ws.getD (4 * j + i / 4) 0 >>> (8 * (3 - i % 4))) &&& 255)

/-- Modelled from the spec: the AES block-cipher primitive of section 4.1
(`BlockEncrypt(key, block)`), which the repository takes from the external
RustCrypto crate.  Dispatches between 10 rounds (16-byte key) and 14 rounds
(32-byte key) as the spec's two variants require. -/
def aesEncryptBlock (key : List Nat) (blk : Nat) : Nat :=
  let ws := keyWords key
  let nr := if key.length = 16 then 10 else 14
  let st0 := blk ^^^ roundKey ws 0
  let stm := (List.range (nr - 1)).foldl
    (fun st j => mixColumns (shiftRows (subBytes st)) ^^^ roundKey ws (j + 1)) st0
  shiftRows (subBytes stm) ^^^ roundKey ws nr

/-- Carry-less (polynomial) product of two 128-bit field elements, bit `i`
standing for the coefficient of x^i. -/
def clmul (a b : Nat) : Nat :=
  (List.range 128).foldl (fun acc i => if (a >>> i) &&& 1 = 1 then acc ^^^ (b <<< i) else acc) 0

/-- The POLYVAL field polynomial x^128 + x^127 + x^126 + x^121 + 1 of
RFC 8452. -/
def polyP : Nat := 2 ^ 128 + 2 ^ 127 + 2 ^ 126 + 2 ^ 121 + 1

/-- Reduce a polynomial of degree below 255 modulo the POLYVAL field
polynomial. -/
def polyReduce (n : Nat) : Nat :=
  (List.range 127).foldl (fun acc j =>
    let i := 254 - j
    if (acc >>> i) &&& 1 = 1 then acc ^^^ (polyP <<< (i - 128)) else acc) n

/-- Product in the POLYVAL field GF(2^128). -/
def gfMul (a b : Nat) : Nat := polyReduce (clmul a b)

/-- The POLYVAL constant x^-128 = x^127 + x^124 + x^121 + x^114 + 1. -/
def xNeg128 : Nat := 2 ^ 127 + 2 ^ 124 + 2 ^ 121 + 2 ^ 114 + 1

/-- POLYVAL dot operation: a * b * x^-128 in the field. -/
def polyvalDot (a b : Nat) : Nat := gfMul (gfMul a b) xNeg128

/-- Modelled from the spec: the POLYVAL universal hash of section 4.2
(`Polyval(hashKey, blocks)`), which the repository takes from the external
RustCrypto crate.  Horner accumulation left to right: each block is added
(XOR) then multiplied by the hash key with the dot operation. -/
def polyvalBlocks (h : Nat) (blocks : List Nat) : Nat :=
  blocks.foldl (fun s x => polyvalDot (s ^^^ x) h) 0

/-- Chunking loop of `toBlocks`, structurally recursive on a fuel that the
caller sets to the list length (one chunk consumes at least one element, so
the fuel never runs out). -/
def toBlocksGo : Nat → List Nat → List Nat
  | _, [] => []
  | 0, _ :: _ => []
  | f + 1, l => bytesToNat (l.take 16) :: toBlocksGo f (l.drop 16)

/-- Split a byte sequence into 16-byte blocks, the last one zero-padded;
packing a short chunk little-endian is exactly zero padding. -/
def toBlocks (l : List Nat) : List Nat := toBlocksGo l.length l

/-- Length block of the POLYVAL input: 64-bit little-endian bit-length of
the AAD in the low half, of the plaintext in the high half. -/
def lenBlock (aad pt : List Nat) : Nat :=
  ((8 * aad.length) &&& (2 ^ 64 - 1)) ||| (((8 * pt.length) &&& (2 ^ 64 - 1)) <<< 64)

/-- Modelled from the spec: the tag computation of section 4.4 steps 3 and 4
(POLYVAL over padded AAD, padded plaintext and the length block, XOR with the
nonce in the low 12 bytes, clear the most significant bit of the last byte,
then one block encryption under the message encryption key). -/
def computeTag (macKey encKey nonce pt aad : List Nat) : Nat :=
  aesEncryptBlock encKey
    ((polyvalBlocks (bytesToNat macKey) (toBlocks aad ++ toBlocks pt ++ [lenBlock aad pt])
        ^^^ bytesToNat nonce) &&& (2 ^ 127 - 1))

/-- Number of counter-mode block-cipher invocations the key derivation makes:
8 bytes are retained from each block, and 16 + keySize bytes of keystream
are needed. -/
def kdfBlockCount (keySize : Nat) : Nat := (16 + keySize + 7) / 8

/-- Modelled from the spec: the keystream of the key derivation of section
4.3, which the repository takes from the external RustCrypto crate.  Block
`i` is the 4-byte little-endian counter `i` followed by the 12-byte nonce,
encrypted under the master key; the first 8 bytes of each result are
concatenated. -/
def kdfStream (key nonce : List Nat) : List Nat :=
  (List.range (kdfBlockCount key.length)).foldl
    (fun acc i => acc ++ (toBytes16 (aesEncryptBlock key (i ||| (bytesToNat nonce <<< 32)))).take 8) []

/-- Message authentication key: the first 16 bytes of the KDF keystream. -/
def macKeyOf (key nonce : List Nat) : List Nat := (kdfStream key nonce).take 16

/-- Message encryption key: the rest of the KDF keystream (16 bytes for
AES-128, 32 bytes for AES-256). -/
def encKeyOf (key nonce : List Nat) : List Nat := (kdfStream key nonce).drop 16

/-- Modelled from the spec: `DeriveKeys(masterKey, nonce)` of section 4.3,
the pair of per-message subkeys. -/
def deriveKeys (key nonce : List Nat) : List Nat × List Nat :=
  (macKeyOf key nonce, encKeyOf key nonce)

/-- Increment the 32-bit little-endian counter in the low 4 bytes of a
block, leaving the upper 96 bits fixed. -/
def incCtr (c : Nat) : Nat :=
  ((c >>> 32) <<< 32) ||| (((c &&& 0xFFFFFFFF) + 1) &&& 0xFFFFFFFF)

/-- Keystream of `k` full blocks starting at counter block `c`. -/
def ctrBlocks (ek : List Nat) : Nat → Nat → List Nat
  | _, 0 => []
  | c, k + 1 => toBytes16 (aesEncryptBlock ek c) ++ ctrBlocks ek (incCtr c) k

/-- Keystream of exactly `n` bytes starting at counter block `c`. -/
def ctrStream (ek : List Nat) (c n : Nat) : List Nat :=
  (ctrBlocks ek c ((n + 15) / 16)).take n

/-- Maximum plaintext and AAD length in bytes (spec sections 1 and 3). -/
def sMax : Nat := 2 ^ 36 - 31

/-- Tag of a message: the tag computation under the derived per-message
subkeys (spec section 4.4 steps 2 to 4). -/
def tagOf (key nonce pt aad : List Nat) : Nat :=
  computeTag (macKeyOf key nonce) (encKeyOf key nonce) nonce pt aad

/-- Counter-mode keystream of `n` bytes under the derived encryption key,
seeded by a tag with its most significant bit forced to 1 (spec section 4.4
steps 5 and 6). -/
def keystream (key nonce : List Nat) (tag n : Nat) : List Nat :=
  ctrStream (encKeyOf key nonce) (tag ||| 2 ^ 127) n

/-- Modelled from the spec: the AEAD encryption orchestrator of section 4.4,
which the repository takes from the external RustCrypto crate.  Derives the
per-message subkeys, computes the tag, encrypts in counter mode seeded by
the tag, and appends the tag; inputs beyond the RFC size ceiling are the
internal failure the wrapper maps to its authentication error. -/
def gcmSivEncrypt (key nonce pt aad : List Nat) : Option (List Nat) :=
  if pt.length ≤ sMax ∧ aad.length ≤ sMax then
    some (List.zipWith Nat.xor pt (keystream key nonce (tagOf key nonce pt aad) pt.length)
      ++ toBytes16 (tagOf key nonce pt aad))
  else none

/-- Modelled from the spec: the AEAD decryption orchestrator of section 4.4,
which the repository takes from the external RustCrypto crate.  Rejects
inputs shorter than 16 bytes, splits off the trailing 16-byte tag,
regenerates the keystream seeded by the tag, recomputes the expected tag
over the candidate plaintext and compares. -/
def gcmSivDecrypt (key nonce ct aad : List Nat) : Option (List Nat) :=
  if 16 ≤ ct.length ∧ ct.length ≤ sMax + 16 ∧ aad.length ≤ sMax then
    if tagOf key nonce
        (List.zipWith Nat.xor (ct.take (ct.length - 16))
          (keystream key nonce (bytesToNat (ct.drop (ct.length - 16)))
            (ct.take (ct.length - 16)).length)) aad
        = bytesToNat (ct.drop (ct.length - 16)) then
      some (List.zipWith Nat.xor (ct.take (ct.length - 16))
        (keystream key nonce (bytesToNat (ct.drop (ct.length - 16)))
          (ct.take (ct.length - 16)).length))
    else none
  else none

/-- Error type of `src/lib.rs` (`CryptoError`). -/
inductive CryptoError
  /-- Authentication failed during decryption. -/
  | Auth
  /-- Invalid key size provided. -/
  | InvalidKeySize
  /-- Invalid nonce size provided. -/
  | InvalidNonceSize

deriving instance DecidableEq for CryptoError

/-- Fixed nonce length in bytes (`NONCE_LENGTH` of `src/lib.rs`). -/
def NONCE_LENGTH : Nat := 12

/-- Fixed tag length in bytes (`TAG_LENGTH` of `src/lib.rs`). -/
def TAG_LENGTH : Nat := 16

/-- The public `encrypt` of `src/lib.rs`: reject a nonce that is not 12
bytes, dispatch on the key length (16 bytes AES-128, 32 bytes AES-256,
anything else an invalid key size), and map any cipher failure to `Auth`. -/
def encrypt (key nonce plaintext aad : List Nat) : Except CryptoError (List Nat) :=
  if nonce.length ≠ NONCE_LENGTH then .error .InvalidNonceSize
  else if key.length = 16 then
    match gcmSivEncrypt key nonce plaintext aad with
    | some ct => .ok ct
    | none => .error .Auth
  else if key.length = 32 then
    match gcmSivEncrypt key nonce plaintext aad with
    | some ct => .ok ct
    | none => .error .Auth
  else .error .InvalidKeySize

/-- The public `decrypt` of `src/lib.rs`: the same validation and dispatch
as `encrypt`, with cipher failure (including authentication failure) mapped
to `Auth`. -/
def decrypt (key nonce ciphertext aad : List Nat) : Except CryptoError (List Nat) :=
  if nonce.length ≠ NONCE_LENGTH then .error .InvalidNonceSize
  else if key.length = 16 then
    match gcmSivDecrypt key nonce ciphertext aad with
    | some pt => .ok pt
    | none => .error .Auth
  else if key.length = 32 then
    match gcmSivDecrypt key nonce ciphertext aad with
    | some pt => .ok pt
    | none => .error .Auth
  else .error .InvalidKeySize

/-! Concrete RFC 8452 Appendix A inputs and outputs used by the test-vector
claim and by witnesses: the AES-128 key `01` then 15 zero bytes, the AES-256
key `01` then 31 zero bytes, the nonce `03` then 11 zero bytes, and the
expected ciphertexts. -/

/-- RFC 8452 Appendix A AES-128 key: `01` followed by 15 zero bytes. -/
def K128 : List Nat := [1, 0, 0, 0, 0, 0, 0, 0, 0, 0, 0, 0, 0, 0, 0, 0]

/-- RFC 8452 Appendix A AES-256 key: `01` followed by 31 zero bytes. -/
def K256 : List Nat :=
  [1, 0, 0, 0, 0, 0, 0, 0, 0, 0, 0, 0, 0, 0, 0, 0,
   0, 0, 0, 0, 0, 0, 0, 0, 0, 0, 0, 0, 0, 0, 0, 0]

/-- RFC 8452 Appendix A nonce: `03` followed by 11 zero bytes. -/
def NONCE_A : List Nat := [3, 0, 0, 0, 0, 0, 0, 0, 0, 0, 0, 0]

/-- RFC 8452 Appendix A.2 plaintext `0100000000000000`. -/
def PT_A2 : List Nat := [1, 0, 0, 0, 0, 0, 0, 0]

/-- Expected ciphertext `dc20e2d83f25705bb49e439eca56de25` of Appendix A.1. -/
def CT_A1 : List Nat :=
  [0xdc, 0x20, 0xe2, 0xd8, 0x3f, 0x25, 0x70, 0x5b,
   0xb4, 0x9e, 0x43, 0x9e, 0xca, 0x56, 0xde, 0x25]

/-- Expected ciphertext `b5d839330ac7b786578782fff6013b815b287c22493a364c`
of Appendix A.2. -/
def CT_A2 : List Nat :=
  [0xb5, 0xd8, 0x39, 0x33, 0x0a, 0xc7, 0xb7, 0x86,
   0x57, 0x87, 0x82, 0xff, 0xf6, 0x01, 0x3b, 0x81,
   0x5b, 0x28, 0x7c, 0x22, 0x49, 0x3a, 0x36, 0x4c]

/-- Expected ciphertext `07f5f4169bbf55a8400cd47ea6fd400f` of the AES-256
variant (Appendix A.6). -/
def CT_A3 : List Nat :=
  [0x07, 0xf5, 0xf4, 0x16, 0x9b, 0xbf, 0x55, 0xa8,
   0x40, 0x0c, 0xd4, 0x7e, 0xa6, 0xfd, 0x40, 0x0f]

set_option maxRecDepth 100000

/-! Evaluation lemmas: the KDF outputs, POLYVAL digests and tags of the
RFC 8452 Appendix A vectors, established by kernel evaluation in stages
(the full pipeline is evaluated piecewise, one primitive at a time). -/

lemma kdf128_mac : macKeyOf K128 NONCE_A =
    [217, 179, 96, 39, 150, 148, 148, 26, 197, 219, 198, 152, 122, 218, 115, 119] := by
  decide

lemma kdf128_enc : encKeyOf K128 NONCE_A =
    [64, 4, 160, 220, 216, 98, 242, 165, 115, 96, 33, 157, 45, 68, 239, 108] := by
  decide

lemma kdf256_mac : macKeyOf K256 NONCE_A =
    [181, 211, 197, 41, 223, 175, 172, 67, 19, 109, 45, 17, 190, 40, 77, 127] := by
  decide

lemma kdf256_enc : encKeyOf K256 NONCE_A =
    [185, 20, 244, 116, 43, 233, 225, 215, 162, 248, 74, 221, 191, 150, 222, 195,
     69, 110, 60, 108, 5, 236, 193, 87, 205, 191, 7, 0, 254, 218, 210, 34] := by
  decide

lemma poly_v1 : polyvalBlocks
    (bytesToNat [217, 179, 96, 39, 150, 148, 148, 26, 197, 219, 198, 152, 122, 218, 115, 119])
    (toBlocks [] ++ toBlocks [] ++ [lenBlock [] []]) = 0 := by
  decide

lemma tag_v1 : aesEncryptBlock
    [64, 4, 160, 220, 216, 98, 242, 165, 115, 96, 33, 157, 45, 68, 239, 108]
    ((0 ^^^ bytesToNat NONCE_A) &&& (2 ^ 127 - 1)) =
    0x25de56ca9e439eb45b70253fd8e220dc := by
  decide

lemma blocks_v2 : toBlocks [] ++ toBlocks PT_A2 ++ [lenBlock [] PT_A2] =
    [1, 0x400000000000000000] := by
  decide

lemma dot1_v2 : polyvalDot (0 ^^^ 1)
    (bytesToNat [217, 179, 96, 39, 150, 148, 148, 26, 197, 219, 198, 152, 122, 218, 115, 119]) =
    0x69c266d87a58d615b4ed2d1914607a4 := by
  decide

lemma dot2_v2 : polyvalDot (0x69c266d87a58d615b4ed2d1914607a4 ^^^ 0x400000000000000000)
    (bytesToNat [217, 179, 96, 39, 150, 148, 148, 26, 197, 219, 198, 152, 122, 218, 115, 119]) =
    0x74ec5cdca7902a9de4c5620974b793eb := by
  decide

lemma poly_v2 : polyvalBlocks
    (bytesToNat [217, 179, 96, 39, 150, 148, 148, 26, 197, 219, 198, 152, 122, 218, 115, 119])
    (toBlocks [] ++ toBlocks PT_A2 ++ [lenBlock [] PT_A2]) =
    0x74ec5cdca7902a9de4c5620974b793eb := by
  rw [blocks_v2]
  unfold polyvalBlocks
  rw [List.foldl_cons, dot1_v2, List.foldl_cons, dot2_v2, List.foldl_nil]

lemma tag_v2 : aesEncryptBlock
    [64, 4, 160, 220, 216, 98, 242, 165, 115, 96, 33, 157, 45, 68, 239, 108]
    ((0x74ec5cdca7902a9de4c5620974b793eb ^^^ bytesToNat NONCE_A) &&& (2 ^ 127 - 1)) =
    0x4c363a49227c285b813b01f6ff828757 := by
  decide

lemma poly_v3 : polyvalBlocks
    (bytesToNat [181, 211, 197, 41, 223, 175, 172, 67, 19, 109, 45, 17, 190, 40, 77, 127])
    (toBlocks [] ++ toBlocks [] ++ [lenBlock [] []]) = 0 := by
  decide

lemma tag_v3 : aesEncryptBlock
    [185, 20, 244, 116, 43, 233, 225, 215, 162, 248, 74, 221, 191, 150, 222, 195,
     69, 110, 60, 108, 5, 236, 193, 87, 205, 191, 7, 0, 254, 218, 210, 34]
    ((0 ^^^ bytesToNat NONCE_A) &&& (2 ^ 127 - 1)) =
    0xf40fda67ed40c40a855bf9b16f4f507 := by
  decide

lemma gcm_v1 : gcmSivEncrypt K128 NONCE_A [] [] = some CT_A1 := by
  unfold gcmSivEncrypt tagOf computeTag keystream
  rw [kdf128_mac, kdf128_enc, poly_v1, tag_v1]
  decide

lemma gcm_v2 : gcmSivEncrypt K128 NONCE_A PT_A2 [] = some CT_A2 := by
  unfold gcmSivEncrypt tagOf computeTag keystream
  rw [kdf128_mac, kdf128_enc, poly_v2, tag_v2]
  decide

lemma gcm_v3 : gcmSivEncrypt K256 NONCE_A [] [] = some CT_A3 := by
  unfold gcmSivEncrypt tagOf computeTag keystream
  rw [kdf256_mac, kdf256_enc, poly_v3, tag_v3]
  decide

lemma enc_v1 : encrypt K128 NONCE_A [] [] = Except.ok CT_A1 := by
  unfold encrypt
  rw [if_neg (by decide), if_pos (by decide), gcm_v1]

lemma enc_v2 : encrypt K128 NONCE_A PT_A2 [] = Except.ok CT_A2 := by
  unfold encrypt
  rw [if_neg (by decide), if_pos (by decide), gcm_v2]

lemma enc_v3 : encrypt K256 NONCE_A [] [] = Except.ok CT_A3 := by
  unfold encrypt
  rw [if_neg (by decide), if_neg (by decide), if_pos (by decide), gcm_v3]

/-! Structural lemmas about the model. -/

lemma toBytes16_length (n : Nat) : (toBytes16 n).length = 16 := by
  simp [toBytes16]

lemma ctrBlocks_length (ek : List Nat) : ∀ k c, (ctrBlocks ek c k).length = 16 * k := by
  intro k
  induction k with
  | zero => intro c; rfl
  | succ m ih =>
    intro c
    simp only [ctrBlocks, List.length_append, toBytes16_length, ih]
    omega

lemma ctrStream_length (ek : List Nat) (c n : Nat) : (ctrStream ek c n).length = n := by
  simp only [ctrStream, List.length_take, ctrBlocks_length]
  omega

lemma keystream_length (key nonce : List Nat) (t n : Nat) :
    (keystream key nonce t n).length = n := by
  simp [keystream, ctrStream_length]

lemma zipWith_xor_cancel : ∀ (l s : List Nat), l.length ≤ s.length →
    List.zipWith Nat.xor (List.zipWith Nat.xor l s) s = l := by
  intro l
  induction l with
  | nil => intro s _; simp
  | cons a l ih =>
    intro s hs
    cases s with
    | nil => simp at hs
    | cons b s =>
      simp only [List.zipWith_cons_cons, List.length_cons] at hs ⊢
      have hx : (a.xor b).xor b = a := Nat.xor_cancel_right b a
      rw [hx, ih s (by omega)]

lemma getByte_lt (n i : Nat) : getByte n i < 256 := by
  have := Nat.and_le_right (n := n >>> (8 * i)) (m := 255)
  simp only [getByte]
  omega

lemma pack16_lt (f : Nat → Nat) (hf : ∀ i, f i < 256) : pack16 f < 2 ^ 128 := by
  have key : ∀ (l : List Nat), (∀ i ∈ l, i < 16) → ∀ acc, acc < 2 ^ 128 →
      (l.foldl (fun a i => a ||| (f i <<< (8 * i))) acc) < 2 ^ 128 := by
    intro l
    induction l with
    | nil => intro _ acc hacc; exact hacc
    | cons x xs ih =>
      intro hl acc hacc
      refine ih (fun i hi => hl i (List.mem_cons_of_mem _ hi)) _ ?_
      have hx : x < 16 := hl x (List.mem_cons_self _ _)
      have h1 : f x <<< (8 * x) < 2 ^ 128 := by
        rw [Nat.shiftLeft_eq]
        calc f x * 2 ^ (8 * x) < 256 * 2 ^ (8 * x) :=
              (Nat.mul_lt_mul_right (Nat.two_pow_pos _)).mpr (hf x)
          _ = 2 ^ (8 + 8 * x) := by rw [Nat.pow_add]
          _ ≤ 2 ^ 128 := Nat.pow_le_pow_right (by omega) (by omega)
      exact Nat.or_lt_two_pow hacc h1
  refine key _ (fun i hi => List.mem_range.mp hi) 0 (by omega)

lemma roundKey_lt (ws : List Nat) (j : Nat) : roundKey ws j < 2 ^ 128 := by
  refine pack16_lt _ (fun i => ?_)
  have := Nat.and_le_right (n := ws.getD (4 * j + i / 4) 0 >>> (8 * (3 - i % 4))) (m := 255)
  omega

lemma shiftRows_lt (st : Nat) : shiftRows st < 2 ^ 128 :=
  pack16_lt _ (fun i => getByte_lt st (shiftRowsSrc i))

lemma aesEncryptBlock_lt (key : List Nat) (blk : Nat) : aesEncryptBlock key blk < 2 ^ 128 := by
  unfold aesEncryptBlock
  exact Nat.xor_lt_two_pow (shiftRows_lt _) (roundKey_lt _ _)

lemma tagOf_lt (key nonce pt aad : List Nat) : tagOf key nonce pt aad < 2 ^ 128 := by
  unfold tagOf computeTag
  exact aesEncryptBlock_lt _ _

lemma bytesToNat_toBytes16 (n : Nat) (h : n < 2 ^ 128) : bytesToNat (toBytes16 n) = n := by
  have he : toBytes16 n = [getByte n 0, getByte n 1, getByte n 2, getByte n 3,
      getByte n 4, getByte n 5, getByte n 6, getByte n 7, getByte n 8, getByte n 9,
      getByte n 10, getByte n 11, getByte n 12, getByte n 13, getByte n 14, getByte n 15] := rfl
  rw [he]
  have hb : ∀ i : Nat, getByte n i = n / 2 ^ (8 * i) % 2 ^ 8 := by
    intro i
    have h255 : (255 : Nat) = 2 ^ 8 - 1 := rfl
    rw [getByte, h255, Nat.and_pow_two_sub_one_eq_mod, Nat.shiftRight_eq_div_pow]
  simp only [hb, bytesToNat, List.foldr]
  omega

lemma roundtrip_core (key nonce pt aad : List Nat)
    (hp : pt.length ≤ sMax) (ha : aad.length ≤ sMax) :
    gcmSivDecrypt key nonce
      (List.zipWith Nat.xor pt (keystream key nonce (tagOf key nonce pt aad) pt.length)
        ++ toBytes16 (tagOf key nonce pt aad)) aad = some pt := by
  set tg := tagOf key nonce pt aad with htg
  set ks := keystream key nonce tg pt.length with hks
  have hksl : ks.length = pt.length := keystream_length key nonce tg pt.length
  set E := List.zipWith Nat.xor pt ks with hE
  have hEl : E.length = pt.length := by
    rw [hE, List.length_zipWith, hksl, Nat.min_self]
  have hT : (toBytes16 tg).length = 16 := toBytes16_length tg
  have hctl : (E ++ toBytes16 tg).length = pt.length + 16 := by
    rw [List.length_append, hEl, hT]
  unfold gcmSivDecrypt
  rw [if_pos (by rw [hctl]; refine ⟨by omega, by omega, ha⟩)]
  have h1 : (E ++ toBytes16 tg).length - 16 = E.length := by omega
  rw [h1, List.take_left, List.drop_left, bytesToNat_toBytes16 tg (htg ▸ tagOf_lt key nonce pt aad),
    hEl, ← hks, hE, zipWith_xor_cancel pt ks (le_of_eq hksl.symm), ← htg, if_pos rfl]

lemma encrypt_ok_elim (key nonce pt aad ct : List Nat)
    (h : encrypt key nonce pt aad = Except.ok ct) :
    nonce.length = 12 ∧ (key.length = 16 ∨ key.length = 32) ∧
      gcmSivEncrypt key nonce pt aad = some ct := by
  unfold encrypt at h
  by_cases hn : nonce.length ≠ NONCE_LENGTH
  · rw [if_pos hn] at h; exact absurd h (by simp)
  rw [if_neg hn] at h
  have hn12 : nonce.length = 12 := by
    simpa [NONCE_LENGTH] using not_not.mp hn
  by_cases h16 : key.length = 16
  · rw [if_pos h16] at h
    cases hg : gcmSivEncrypt key nonce pt aad with
    | none => rw [hg] at h; exact absurd h (by simp)
    | some v =>
      rw [hg] at h
      have hv : v = ct := by injection h
      exact ⟨hn12, Or.inl h16, by rw [hv]⟩
  · rw [if_neg h16] at h
    by_cases h32 : key.length = 32
    · rw [if_pos h32] at h
      cases hg : gcmSivEncrypt key nonce pt aad with
      | none => rw [hg] at h; exact absurd h (by simp)
      | some v =>
        rw [hg] at h
        have hv : v = ct := by injection h
        exact ⟨hn12, Or.inr h32, by rw [hv]⟩
    · rw [if_neg h32] at h; exact absurd h (by simp)

lemma gcmSivEncrypt_bounds (key nonce pt aad ct : List Nat)
    (hg : gcmSivEncrypt key nonce pt aad = some ct) :
    pt.length ≤ sMax ∧ aad.length ≤ sMax := by
  unfold gcmSivEncrypt at hg
  by_cases hc : pt.length ≤ sMax ∧ aad.length ≤ sMax
  · exact hc
  · rw [if_neg hc] at hg; exact Option.noConfusion hg

lemma gcmSiv_round_trip (key nonce pt aad ct : List Nat)
    (hg : gcmSivEncrypt key nonce pt aad = some ct) :
    gcmSivDecrypt key nonce ct aad = some pt := by
  obtain ⟨hp, ha⟩ := gcmSivEncrypt_bounds key nonce pt aad ct hg
  unfold gcmSivEncrypt at hg
  rw [if_pos ⟨hp, ha⟩] at hg
  have hbody := Option.some.inj hg
  subst hbody
  exact roundtrip_core key nonce pt aad hp ha

lemma gcmSivEncrypt_length (key nonce pt aad ct : List Nat)
    (hg : gcmSivEncrypt key nonce pt aad = some ct) :
    ct.length = pt.length + 16 := by
  obtain ⟨hp, ha⟩ := gcmSivEncrypt_bounds key nonce pt aad ct hg
  unfold gcmSivEncrypt at hg
  rw [if_pos ⟨hp, ha⟩] at hg
  have hbody := Option.some.inj hg
  rw [← hbody, List.length_append, List.length_zipWith, keystream_length,
    toBytes16_length, Nat.min_self]

/-! The claims. -/

/-- C1: encrypt reproduces the RFC 8452 Appendix A vectors exactly: with key
`01` then 15 zero bytes and nonce `03` then 11 zero bytes, the empty
plaintext with empty AAD encrypts to `dc20e2d83f25705bb49e439eca56de25`;
the 8-byte plaintext `0100000000000000` encrypts to
`b5d839330ac7b786578782fff6013b815b287c22493a364c`; and with the 32-byte
key `01` then 31 zero bytes, the empty plaintext encrypts to
`07f5f4169bbf55a8400cd47ea6fd400f`. -/
theorem rfc8452_appendix_a_vectors :
    encrypt K128 NONCE_A [] [] = Except.ok CT_A1 ∧
    encrypt K128 NONCE_A PT_A2 [] = Except.ok CT_A2 ∧
    encrypt K256 NONCE_A [] [] = Except.ok CT_A3 :=
  ⟨enc_v1, enc_v2, enc_v3⟩

/-- C2: round-trip — whenever `encrypt key nonce pt aad` succeeds with
ciphertext `ct` (in particular for every key of length 16 or 32, nonce of
length 12, and valid plaintext and AAD), `decrypt key nonce ct aad` returns
the original plaintext. -/
theorem encrypt_decrypt_round_trip (key nonce pt aad ct : List Nat)
    (h : encrypt key nonce pt aad = Except.ok ct) :
    decrypt key nonce ct aad = Except.ok pt := by
  obtain ⟨hn, hk, hg⟩ := encrypt_ok_elim key nonce pt aad ct h
  have hd := gcmSiv_round_trip key nonce pt aad ct hg
  unfold decrypt NONCE_LENGTH
  rw [if_neg (not_not_intro hn)]
  rcases hk with h16 | h32
  · rw [if_pos h16, hd]
  · rw [if_neg (by omega), if_pos h32, hd]

theorem encrypt_decrypt_round_trip_witness :
    decrypt K128 NONCE_A CT_A2 [] = Except.ok PT_A2 :=
  encrypt_decrypt_round_trip K128 NONCE_A PT_A2 [] CT_A2 enc_v2

/-- C3: length invariant — whenever `encrypt key nonce pt aad` returns
`Ok ct`, the length of `ct` equals the plaintext length plus 16. -/
theorem encrypt_length (key nonce pt aad ct : List Nat)
    (h : encrypt key nonce pt aad = Except.ok ct) :
    ct.length = pt.length + 16 := by
  obtain ⟨_, _, hg⟩ := encrypt_ok_elim key nonce pt aad ct h
  exact gcmSivEncrypt_length key nonce pt aad ct hg

theorem encrypt_length_witness : CT_A2.length = PT_A2.length + 16 :=
  encrypt_length K128 NONCE_A PT_A2 [] CT_A2 enc_v2

/-- C4: input validation — for every input, both operations return
`InvalidNonceSize` when the nonce is not 12 bytes, and `InvalidKeySize` when
the nonce is 12 bytes but the key is neither 16 nor 32 bytes; both errors
are produced by the validation prologue, before any cryptographic
computation. -/
theorem validation_error_taxonomy (key nonce pt aad : List Nat) :
    (nonce.length ≠ 12 →
      encrypt key nonce pt aad = Except.error CryptoError.InvalidNonceSize ∧
      decrypt key nonce pt aad = Except.error CryptoError.InvalidNonceSize) ∧
    (nonce.length = 12 → key.length ≠ 16 → key.length ≠ 32 →
      encrypt key nonce pt aad = Except.error CryptoError.InvalidKeySize ∧
      decrypt key nonce pt aad = Except.error CryptoError.InvalidKeySize) := by
  constructor
  · intro hn
    constructor
    · unfold encrypt NONCE_LENGTH; rw [if_pos hn]
    · unfold decrypt NONCE_LENGTH; rw [if_pos hn]
  · intro hn h16 h32
    constructor
    · unfold encrypt NONCE_LENGTH; rw [if_neg (not_not_intro hn), if_neg h16, if_neg h32]
    · unfold decrypt NONCE_LENGTH; rw [if_neg (not_not_intro hn), if_neg h16, if_neg h32]

theorem validation_error_taxonomy_witness :
    (encrypt K128 [0] [] [] = Except.error CryptoError.InvalidNonceSize ∧
      decrypt K128 [0] [] [] = Except.error CryptoError.InvalidNonceSize) ∧
    (encrypt [0] NONCE_A [] [] = Except.error CryptoError.InvalidKeySize ∧
      decrypt [0] NONCE_A [] [] = Except.error CryptoError.InvalidKeySize) :=
  ⟨(validation_error_taxonomy K128 [0] [] []).1 (by decide),
   (validation_error_taxonomy [0] NONCE_A [] []).2 (by decide) (by decide) (by decide)⟩

/-- C5: short-input rejection — for every valid key and nonce and every AAD,
decrypting an input shorter than 16 bytes returns the authentication error
`Auth`, not a distinct malformed-input error. -/
theorem decrypt_short_input_auth (key nonce ct aad : List Nat)
    (hk : key.length = 16 ∨ key.length = 32) (hn : nonce.length = 12)
    (hlen : ct.length < 16) :
    decrypt key nonce ct aad = Except.error CryptoError.Auth := by
  have hd : gcmSivDecrypt key nonce ct aad = none := by
    unfold gcmSivDecrypt
    rw [if_neg (by omega)]
  unfold decrypt NONCE_LENGTH
  rw [if_neg (not_not_intro hn)]
  rcases hk with h16 | h32
  · rw [if_pos h16, hd]
  · rw [if_neg (by omega), if_pos h32, hd]

theorem decrypt_short_input_auth_witness :
    decrypt K128 NONCE_A [0] [] = Except.error CryptoError.Auth :=
  decrypt_short_input_auth K128 NONCE_A [0] [] (Or.inl (by decide)) (by decide) (by decide)

/-- C7: encryption cannot fail on valid inputs — for every key of length 16
or 32, nonce of length 12, and plaintext and AAD within the RFC 8452 bound
of 2^36 - 31 bytes, encrypt returns `Ok`; the `Auth` branch of the encrypt
path is unreachable under these preconditions. -/
theorem encrypt_succeeds_on_valid_input (key nonce pt aad : List Nat)
    (hk : key.length = 16 ∨ key.length = 32) (hn : nonce.length = 12)
    (hp : pt.length ≤ 2 ^ 36 - 31) (ha : aad.length ≤ 2 ^ 36 - 31) :
    ∃ ct, encrypt key nonce pt aad = Except.ok ct := by
  have hg : gcmSivEncrypt key nonce pt aad =
      some (List.zipWith Nat.xor pt (keystream key nonce (tagOf key nonce pt aad) pt.length)
        ++ toBytes16 (tagOf key nonce pt aad)) := by
    unfold gcmSivEncrypt
    rw [if_pos ⟨hp, ha⟩]
  refine ⟨List.zipWith Nat.xor pt (keystream key nonce (tagOf key nonce pt aad) pt.length)
      ++ toBytes16 (tagOf key nonce pt aad), ?_⟩
  unfold encrypt NONCE_LENGTH
  rw [if_neg (not_not_intro hn)]
  rcases hk with h16 | h32
  · rw [if_pos h16, hg]
  · rw [if_neg (by omega), if_pos h32, hg]

theorem encrypt_succeeds_witness :
    ∃ ct, encrypt K128 NONCE_A [] [] = Except.ok ct :=
  encrypt_succeeds_on_valid_input K128 NONCE_A [] []
    (Or.inl (by decide)) (by decide) (by decide) (by decide)

/-- C8 (amended): DeriveKeys performs exactly ceil((16 + keySize)/8)
counter-mode block-cipher invocations, retaining only the first 8 bytes of
each result — 4 block-cipher calls for AES-128 and 6 for AES-256 (the KDF
keystream is 8 bytes per invocation). -/
theorem kdf_block_count_formula :
    (∀ ks : Nat, kdfBlockCount ks = (16 + ks + 7) / 8) ∧
    kdfBlockCount 16 = 4 ∧ kdfBlockCount 32 = 6 ∧
    (∀ key nonce : List Nat, (kdfStream key nonce).length = 8 * kdfBlockCount key.length) := by
  refine ⟨fun ks => rfl, rfl, rfl, fun key nonce => ?_⟩
  have key8 : ∀ (l : List Nat) (acc : List Nat),
      (l.foldl (fun acc i =>
        acc ++ (toBytes16 (aesEncryptBlock key (i ||| (bytesToNat nonce <<< 32)))).take 8) acc).length
        = acc.length + 8 * l.length := by
    intro l
    induction l with
    | nil => intro acc; simp
    | cons x xs ih =>
      intro acc
      rw [List.foldl_cons, ih, List.length_append, List.length_take, toBytes16_length]
      simp only [List.length_cons]
      omega
  unfold kdfStream
  rw [key8, List.length_range]
  simp

/-- C8 counterexample: the spec's stated counts, 3 block-cipher calls for
AES-128 and 4 for AES-256, contradict its own formula ceil((16+keySize)/8)
and the KDF: the counts are 4 and 6. -/
theorem kdf_block_count_spec_numbers_false :
    ¬(kdfBlockCount 16 = 3 ∧ kdfBlockCount 32 = 4) := by
  decide

/-- C9: determinism — encrypt is a pure function of (key, nonce, plaintext,
aad): two calls with identical arguments produce identical outputs. -/
theorem encrypt_deterministic (key nonce pt aad : List Nat)
    (r1 r2 : Except CryptoError (List Nat))
    (h1 : encrypt key nonce pt aad = r1) (h2 : encrypt key nonce pt aad = r2) :
    r1 = r2 := h1.symm.trans h2

theorem encrypt_deterministic_witness :
    (Except.ok CT_A1 : Except CryptoError (List Nat)) = Except.ok CT_A1 :=
  encrypt_deterministic K128 NONCE_A [] [] (Except.ok CT_A1) (Except.ok CT_A1) enc_v1 enc_v1

/-- C10: validation order — the nonce length is checked before the key
length in both encrypt and decrypt, so an input with an invalid nonce and
an invalid key yields `InvalidNonceSize`, never `InvalidKeySize`. -/
theorem nonce_checked_before_key (key nonce pt aad : List Nat)
    (hn : nonce.length ≠ 12) (_h16 : key.length ≠ 16) (_h32 : key.length ≠ 32) :
    encrypt key nonce pt aad = Except.error CryptoError.InvalidNonceSize ∧
    decrypt key nonce pt aad = Except.error CryptoError.InvalidNonceSize := by
  constructor
  · unfold encrypt NONCE_LENGTH; rw [if_pos hn]
  · unfold decrypt NONCE_LENGTH; rw [if_pos hn]

theorem nonce_checked_before_key_witness :
    encrypt [0] [0] [] [] = Except.error CryptoError.InvalidNonceSize ∧
    decrypt [0] [0] [] [] = Except.error CryptoError.InvalidNonceSize :=
  nonce_checked_before_key [0] [0] [] [] (by decide) (by decide) (by decide)

end AesGcmSiv
